import Mathlib

/-!
The filesystem-node protocol of http-config-fs: the file `main.go`

A shallow embedding of `isDirRedirect`, `httpHandle.Read`, `urlNode.Lookup`,
`urlNode.Open` and the `CheckRedirect` function of `HttpClientNoRedirects`.

The Go standard library and the remote server are the environment of the
program.  They are represented by a `World` value (URL resolution, the answer
to a HEAD probe, the answer to a GET) that every operation receives as an
argument, and every network interaction an operation performs is recorded in
the list of `Event`s it returns, so that "no request is issued" is a statement
about that list.
-/

namespace HttpConfigFs

/-! ## Constants of `syscall` and `fuse` -/

/-- A `syscall.Errno`; `0` is success. -/
abbrev Errno := Nat

/-- The value of `syscall.ENOENT` on Linux. -/
def ENOENT : Errno := 2
/-- The value of `syscall.EIO` on Linux. -/
def EIO : Errno := 5
/-- The value of `syscall.EROFS` on Linux. -/
def EROFS : Errno := 30
/-- The value of `syscall.O_WRONLY`. -/
def O_WRONLY : Nat := 1
/-- The value of `syscall.O_RDWR`. -/
def O_RDWR : Nat := 2
/-- The value of `fuse.S_IFREG` (regular file). -/
def S_IFREG : Nat := 0x8000
/-- The value of `fuse.S_IFDIR` (directory). -/
def S_IFDIR : Nat := 0x4000
/-- The value of `fuse.FOPEN_DIRECT_IO`. -/
def FOPEN_DIRECT_IO : Nat := 1

/-! ## Data model -/

/-- One byte of a response body. -/
abbrev Byte := Fin 256

/-- The fields of a `url.URL` that the program reads or writes. -/
structure URL where
  Scheme : String
  Host : String
  Path : String
  deriving DecidableEq, Repr

/-- A response body is a sequential stream: `data` is what can still be read
from it and `err` tells whether reading it to the end finishes with an error
instead of a clean end of stream. -/
structure Body where
  data : List Byte
  err : Bool
  deriving DecidableEq, Repr

/-- The parts of an `http.Response` the program uses.  `Location` is the
result of the method `resp.Location()`: `none` when it returns an error (no
`Location` header, or one that does not resolve), otherwise the resolved URL.
The status code is carried along although the program never reads it. -/
structure Response where
  StatusCode : Nat
  Location : Option URL
  Body : Body
  deriving DecidableEq, Repr

/-- The parts of an `http.Request` read by `CheckRedirect`. -/
structure Request where
  URL : URL
  deriving DecidableEq, Repr

/-- The environment: relative-URL resolution of `net/url` and the answers of
the network.  `none` stands for a returned Go `error`. -/
structure World where
  /-- The method `(*url.URL).Parse`: resolve a reference against a base. -/
  Parse : URL → String → Option URL
  /-- The call `HttpClientNoRedirects.Head`. -/
  Head : URL → Option Response
  /-- The call `http.Get`; the response that may come with an error is never
  used by the program. -/
  Get : URL → Option Response

/-- A network interaction performed by an operation. -/
inductive Event where
  | head (url : URL)
  | get (url : URL)
  | readAll
  deriving DecidableEq, Repr

/-- The struct `httpHandle`; `resp` is a pointer and may be nil. -/
structure httpHandle where
  resp : Option Response
  hasContent : Bool
  content : List Byte
  contentErr : Errno
  deriving DecidableEq, Repr

/-- The struct `urlNode` (the embedded `fs.Inode` belongs to the transport). -/
structure urlNode where
  Flat : Bool
  Extensions : Bool
  URL : URL
  deriving DecidableEq, Repr

/-! ## Go primitives -/

/-- Two's-complement wrap-around of an `int64` result. -/
def wrapInt64 (x : Int) : Int := (x + 2 ^ 63) % 2 ^ 64 - 2 ^ 63

/-- The slice expression `s[lo:hi]` of Go: `none` is the run-time panic
"slice bounds out of range".  Go checks `0 ≤ lo ≤ hi ≤ cap(s)`; the only
caller passes `hi ≤ len(s)` or a negative `hi`, so the length stands for the
capacity. -/
def goSlice (s : List Byte) (lo hi : Int) : Option (List Byte) :=
  if 0 ≤ lo ∧ lo ≤ hi ∧ hi ≤ (s.length : Int) then
    some ((s.take hi.toNat).drop lo.toNat)
  else none

/-- The function `strings.Contains`. -/
def stringsContains (s substr : String) : Bool :=
  decide (substr.data <:+: s.data)

/-- The function `ioutil.ReadAll` on a body: the bytes read and whether an
error ended the reading, together with the stream afterwards (nothing is left
to read). -/
def ReadAll (b : Body) : (List Byte × Bool) × Body :=
  ((b.data, b.err), { data := [], err := b.err })

/-! ## `isDirRedirect` -/

/-- The function `isDirRedirect(url, location)`. -/
def isDirRedirect (url location : URL) : Bool :=
  url.Host == location.Host && url.Path ++ "/" == location.Path

/-! ## `httpHandle.Read` -/

/-- What a call of `Read` does: it returns a `(fuse.ReadResult, Errno)` pair,
the result being nil or a byte slice, or it panics. -/
inductive ReadOutcome where
  | returned (result : Option (List Byte)) (errno : Errno)
  | panicked
  deriving DecidableEq, Repr

/-- The handle after a call of `Read`, what the call did, and its events. -/
structure ReadResult where
  handle : httpHandle
  outcome : ReadOutcome
  events : List Event
  deriving DecidableEq, Repr

/-- The first part of `Read`: drain the body when nothing was buffered yet.
`none` is the nil-pointer panic of `fh.resp.Body` on a nil response. -/
def fillContent (fh : httpHandle) : Option (httpHandle × List Event) :=
  if !fh.hasContent then
    match fh.resp with
    | none => none
    | some resp =>
      let r := ReadAll resp.Body
      let fh1 : httpHandle :=
        { fh with resp := some { resp with Body := r.2 },
                  content := r.1.1, hasContent := true }
      let fh2 : httpHandle :=
        if r.1.2 then { fh1 with contentErr := EIO } else fh1
      some (fh2, [Event.readAll])
  else some (fh, [])

/-- The second part of `Read`: answer from the buffered content of `fh`,
`evs` being the events of the first part. -/
def readContent (fh : httpHandle) (dest : List Byte) (off : Int) (evs : List Event) :
    ReadResult :=
  if fh.contentErr ≠ 0 then
    { handle := fh, outcome := .returned none fh.contentErr, events := evs }
  else
    let end0 : Int := wrapInt64 (off + (dest.length : Int))
    let end1 : Int :=
      if end0 > (fh.content.length : Int) then (fh.content.length : Int) else end0
    match goSlice fh.content off end1 with
    | some bytes => { handle := fh, outcome := .returned (some bytes) 0, events := evs }
    | none => { handle := fh, outcome := .panicked, events := evs }

/-- The method `httpHandle.Read(ctx, dest, off)`. -/
def Read (fh : httpHandle) (dest : List Byte) (off : Int) : ReadResult :=
  match fillContent fh with
  | none => { handle := fh, outcome := .panicked, events := [] }
  | some (fh, evs) => readContent fh dest off evs

/-- A sequence of `Read` calls on one handle, each on the state left by the
one before: the outcomes in order, the events in order, the final handle.
A call that panics leaves the fields as it had set them, and the calls after
it are still run on that state. -/
def runReads : httpHandle → List (List Byte × Int) → List ReadOutcome × List Event × httpHandle
  | fh, [] => ([], [], fh)
  | fh, (dest, off) :: rest =>
    let r := Read fh dest off
    let t := runReads r.handle rest
    (r.outcome :: t.1, r.events ++ t.2.1, t.2.2)

/-! ## `urlNode.Lookup` -/

/-- The inode returned by `n.NewInode(ctx, operations, stable)`. -/
structure Inode where
  Mode : Nat
  operations : urlNode
  deriving DecidableEq, Repr

/-- The `(*fs.Inode, Errno)` pair returned by `Lookup`, and its events. -/
structure LookupResult where
  child : Option Inode
  errno : Errno
  events : List Event
  deriving DecidableEq, Repr

/-- The classification part of `Lookup`: the mode chosen for the resolved
`url`, and the events of choosing it. -/
def lookupMode (w : World) (n : urlNode) (name : String) (url : URL) : Nat × List Event :=
  if n.Extensions && !stringsContains name "." then
    (S_IFDIR, [])
  else if !n.Flat then
    match w.Head url with
    | none => (S_IFREG, [Event.head url])
    | some resp =>
      match resp.Location with
      | some loc =>
        if isDirRedirect url loc then (S_IFDIR, [Event.head url])
        else (S_IFREG, [Event.head url])
      | none => (S_IFREG, [Event.head url])
  else (S_IFREG, [])

/-- The method `urlNode.Lookup(ctx, name, out)`. -/
def Lookup (w : World) (n : urlNode) (name : String) : LookupResult :=
  match w.Parse n.URL name with
  | none => { child := none, errno := ENOENT, events := [] }
  | some url =>
    let m := lookupMode w n name url
    let mode := m.1
    let url : URL := if mode = S_IFDIR then { url with Path := url.Path ++ "/" } else url
    let operations : urlNode := { Flat := false, Extensions := false, URL := url }
    { child := some { Mode := mode, operations := operations }, errno := 0, events := m.2 }

/-! ## `urlNode.Open` -/

/-- The `(fh, fuseFlags, errno)` triple returned by `Open`, and its events. -/
structure OpenResult where
  fh : Option httpHandle
  fuseFlags : Nat
  errno : Errno
  events : List Event
  deriving DecidableEq, Repr

/-- The method `urlNode.Open(ctx, openFlags)`.  The guard tests the named
result `fuseFlags`, which holds its zero value at that point, as written in
the source; `openFlags` is not read. -/
def Open (w : World) (n : urlNode) (openFlags : Nat) : OpenResult :=
  let fuseFlags : Nat := 0
  if fuseFlags &&& (O_RDWR ||| O_WRONLY) ≠ 0 then
    { fh := none, fuseFlags := 0, errno := EROFS, events := [] }
  else
    let resp := w.Get n.URL
    let err_no : Errno := if resp.isNone then EIO else 0
    let fh : httpHandle :=
      { resp := resp, hasContent := err_no ≠ 0, content := [], contentErr := err_no }
    { fh := some fh, fuseFlags := FOPEN_DIRECT_IO, errno := 0, events := [Event.get n.URL] }

/-! ## `CheckRedirect` of `HttpClientNoRedirects` -/

/-- The value returned by `CheckRedirect`. -/
inductive RedirectDecision where
  /-- Returned `nil`: the client follows the redirect. -/
  | follow
  /-- Returned `http.ErrUseLastResponse`: the redirect response is handed back. -/
  | useLastResponse
  /-- The index expression `via[len(via)-1]` panicked. -/
  | panicked
  deriving DecidableEq, Repr

/-- The function literal assigned to `CheckRedirect`. -/
def CheckRedirect (req : Request) (via : List Request) : RedirectDecision :=
  if req.URL.Scheme = "https" then
    match via.getLast? with
    | none => .panicked
    | some last =>
      if last.URL.Scheme = "http" then .follow else .useLastResponse
  else .useLastResponse

/-! ## Vocabulary of the properties -/

/-- The function `strings.HasSuffix`, as a proposition. -/
def hasSuffix (s suffix : String) : Prop := suffix.data <:+ s.data

instance (s suffix : String) : Decidable (hasSuffix s suffix) := by
  unfold hasSuffix; infer_instance

/-- The open flags ask for write access. -/
def writeIntent (openFlags : Nat) : Prop := openFlags &&& (O_RDWR ||| O_WRONLY) ≠ 0

instance (openFlags : Nat) : Decidable (writeIntent openFlags) := by
  unfold writeIntent; infer_instance

/-- The number of body drains among the events. -/
def drains (evs : List Event) : Nat := evs.count Event.readAll

/-- An HTTP status code of the redirection class. -/
def isRedirectStatus (code : Nat) : Prop := 300 ≤ code ∧ code < 400

instance (code : Nat) : Decidable (isRedirectStatus code) := by
  unfold isRedirectStatus; infer_instance

/-- The HEAD probe of `url` reports a directory: it succeeded, its response
has a resolvable `Location`, and that location has the host of `url` and the
path of `url` followed by a separator. -/
def dirSignal (w : World) (url : URL) : Prop :=
  ∃ resp loc, w.Head url = some resp ∧ resp.Location = some loc ∧
    loc.Host = url.Host ∧ loc.Path = url.Path ++ "/"

/-- A handle that holds the sticky I/O error. -/
def stuck (fh : httpHandle) : Prop := fh.hasContent = true ∧ fh.contentErr = EIO

/-- A handle that serves the content `b`: either `b` is buffered without
error, or nothing is buffered yet and the body will deliver `b` cleanly. -/
def serves (fh : httpHandle) (b : List Byte) : Prop :=
  (fh.hasContent = true ∧ fh.content = b ∧ fh.contentErr = 0) ∨
  (fh.hasContent = false ∧ fh.contentErr = 0 ∧
    ∃ resp, fh.resp = some resp ∧ resp.Body = { data := b, err := false })

/-! ## Concrete scenarios -/

/-- The directory part of a path: everything up to the last separator. -/
def dirOf (p : String) : String :=
  String.mk (p.data.reverse.dropWhile (fun c => c != '/')).reverse

/-- Relative resolution for the references used in the scenarios: a plain
segment is appended to the directory of the base, and `.` is that directory
itself (RFC 3986, section 5.2). -/
def resolveSegment (base : URL) (ref : String) : Option URL :=
  if ref = "." then some { base with Path := dirOf base.Path }
  else some { base with Path := dirOf base.Path ++ ref }

/-- The root URL of the scenarios, `http://example.com/a/`. -/
def exampleRoot : URL := { Scheme := "http", Host := "example.com", Path := "/a/" }

/-- The bytes of `"hello"`. -/
def hello : List Byte := [104, 101, 108, 108, 111]

/-- A destination buffer of the given length. -/
def buffer (len : Nat) : List Byte := List.replicate len 0

/-- A server that answers a HEAD for one of the paths `dirs` with status
`status` and a `Location` naming the same path followed by a separator, and
any other HEAD with a plain 200; every GET is answered by `get`. -/
def server (dirs : List String) (status : Nat) (get : Option Response) : World where
  Parse := resolveSegment
  Head := fun u =>
    if u.Path ∈ dirs then
      some { StatusCode := status, Location := some { u with Path := u.Path ++ "/" },
             Body := { data := [], err := false } }
    else some { StatusCode := 200, Location := none, Body := { data := [], err := false } }
  Get := fun _ => get

/-- A 200 response with the given body. -/
def okResponse (body : Body) : Response :=
  { StatusCode := 200, Location := none, Body := body }

/-- A handle that has buffered `"hello"` without error. -/
def helloHandle : httpHandle :=
  { resp := some (okResponse { data := [], err := false }), hasContent := true,
    content := hello, contentErr := 0 }

/-- A node of the scenarios at the root URL. -/
def nodeAt (flat extensions : Bool) : urlNode :=
  { Flat := flat, Extensions := extensions, URL := exampleRoot }

/-- A request for the given URL. -/
def requestFor (scheme host path : String) : Request :=
  { URL := { Scheme := scheme, Host := host, Path := path } }

/-- The child that the lookup of `docs` under the root yields when it is
classified as a directory. -/
def docsChild : Inode :=
  { Mode := S_IFDIR,
    operations := { Flat := false, Extensions := false,
                    URL := { Scheme := "http", Host := "example.com", Path := "/a/docs/" } } }

/-- The handle `Open` builds when the GET failed. -/
def failedGetHandle : httpHandle :=
  { resp := none, hasContent := true, content := [], contentErr := EIO }

/-- A body that delivers two bytes and then fails. -/
def brokenBody : Body := { data := [104, 101], err := true }

/-- The handle `Open` builds on a response with the given body. -/
def freshHandle (body : Body) : httpHandle :=
  { resp := some (okResponse body), hasContent := false, content := [], contentErr := 0 }

/-- Three reads at offsets 0, 3 and 0 again. -/
def threeReads : List (List Byte × Int) := [(buffer 10, 0), (buffer 4, 3), (buffer 10, 0)]

/-- A clean body delivering `"hello"`. -/
def helloBody : Body := { data := hello, err := false }

/-- The reads `Read(0, 10)`, `Read(5, 10)` at the end of the content, `Read(6, 10)`
beyond it, and `Read(2, 2)`. -/
def helloReads : List (List Byte × Int) :=
  [(buffer 10, 0), (buffer 10, 5), (buffer 10, 6), (buffer 2, 2)]

/-- The URL `http://example.com/a/` followed by the given rest of the path. -/
def underRoot (rest : String) : URL :=
  { Scheme := "http", Host := "example.com", Path := "/a/" ++ rest }

/-- The inode of a child of the given mode and URL; its node has the zero
value in `Flat` and `Extensions`. -/
def childOf (mode : Nat) (url : URL) : Inode :=
  { Mode := mode, operations := { Flat := false, Extensions := false, URL := url } }

/-! ## Lemmas on the primitives -/

theorem stringsContains_dot (name : String) :
    stringsContains name "." = true ↔ '.' ∈ name.data := by
  unfold stringsContains
  rw [decide_eq_true_iff]
  show ['.'] <:+: name.data ↔ _
  constructor
  · rintro ⟨s, t, h⟩
    rw [← h]
    simp
  · intro h
    obtain ⟨s, t, hst⟩ := List.append_of_mem h
    exact ⟨s, t, by simp [hst]⟩

theorem stringsContains_dot_false (name : String) :
    stringsContains name "." = false ↔ '.' ∉ name.data := by
  rw [← stringsContains_dot]
  simp

theorem isDirRedirect_iff (url loc : URL) :
    isDirRedirect url loc = true ↔ loc.Host = url.Host ∧ loc.Path = url.Path ++ "/" := by
  unfold isDirRedirect
  simp only [Bool.and_eq_true, beq_iff_eq]
  constructor
  · rintro ⟨h1, h2⟩; exact ⟨h1.symm, h2.symm⟩
  · rintro ⟨h1, h2⟩; exact ⟨h1.symm, h2.symm⟩

theorem wrapInt64_of_range (x : Int) (h0 : 0 ≤ x) (h1 : x < 2 ^ 63) : wrapInt64 x = x := by
  unfold wrapInt64
  omega

/-! ## Lemmas on `Read` -/

theorem readContent_handle (fh : httpHandle) (dest : List Byte) (off : Int)
    (evs : List Event) : (readContent fh dest off evs).handle = fh := by
  unfold readContent
  split
  · rfl
  · simp only []
    split <;> rfl

theorem readContent_events (fh : httpHandle) (dest : List Byte) (off : Int)
    (evs : List Event) : (readContent fh dest off evs).events = evs := by
  unfold readContent
  split
  · rfl
  · simp only []
    split <;> rfl

theorem Read_stuck (fh : httpHandle) (dest : List Byte) (off : Int) (h : stuck fh) :
    Read fh dest off = { handle := fh, outcome := .returned none EIO, events := [] } := by
  obtain ⟨h1, h2⟩ := h
  simp [Read, readContent, fillContent, h1, h2, EIO]

theorem runReads_stuck (fh : httpHandle) (reads : List (List Byte × Int)) (h : stuck fh) :
    runReads fh reads = (reads.map (fun _ => ReadOutcome.returned none EIO), [], fh) := by
  induction reads with
  | nil => rfl
  | cons r rest ih =>
    obtain ⟨dest, off⟩ := r
    simp [runReads, Read_stuck fh dest off h, ih]

theorem Read_drain_fails (fh : httpHandle) (resp : Response) (dest : List Byte) (off : Int)
    (h1 : fh.hasContent = false) (h2 : fh.resp = some resp) (h3 : resp.Body.err = true) :
    (Read fh dest off).outcome = .returned none EIO ∧
    (Read fh dest off).events = [Event.readAll] ∧ stuck (Read fh dest off).handle := by
  simp [Read, readContent, fillContent, ReadAll, h1, h2, h3, EIO, stuck]

theorem Read_buffered (fh : httpHandle) (dest : List Byte) (off : Int)
    (h : fh.hasContent = true) :
    (Read fh dest off).events = [] ∧ (Read fh dest off).handle = fh := by
  have hf : fillContent fh = some (fh, []) := by simp [fillContent, h]
  simp only [Read, hf, readContent_events, readContent_handle, and_self]

theorem runReads_buffered (fh : httpHandle) (reads : List (List Byte × Int))
    (h : fh.hasContent = true) : (runReads fh reads).2.1 = [] := by
  induction reads with
  | nil => rfl
  | cons r rest ih =>
    obtain ⟨dest, off⟩ := r
    obtain ⟨he, hh⟩ := Read_buffered fh dest off h
    simp [runReads, he, hh, ih]

theorem Read_unbuffered (fh : httpHandle) (dest : List Byte) (off : Int)
    (h : fh.hasContent = false) :
    ((Read fh dest off).events = [] ∧ (Read fh dest off).handle = fh) ∨
    ((Read fh dest off).events = [Event.readAll] ∧
      (Read fh dest off).handle.hasContent = true) := by
  cases hr : fh.resp with
  | none =>
    left
    have hf : fillContent fh = none := by simp [fillContent, h, hr]
    simp [Read, hf]
  | some resp =>
    right
    cases he : resp.Body.err <;>
      simp [Read, fillContent, ReadAll, h, hr, he, readContent_events, readContent_handle]

theorem drains_runReads_le_one (fh : httpHandle) (reads : List (List Byte × Int)) :
    drains (runReads fh reads).2.1 ≤ 1 := by
  induction reads generalizing fh with
  | nil => simp [runReads, drains]
  | cons r rest ih =>
    obtain ⟨dest, off⟩ := r
    cases hc : fh.hasContent with
    | true =>
      rw [runReads_buffered fh _ hc]
      simp [drains]
    | false =>
      rcases Read_unbuffered fh dest off hc with ⟨he, hh⟩ | ⟨he, hh⟩
      · simpa [runReads, he, hh] using ih fh
      · simp [runReads, he, runReads_buffered _ rest hh, drains]

theorem readContent_serves_int (fh : httpHandle) (dest : List Byte) (off : Int)
    (evs : List Event) (he : fh.contentErr = 0) (h0 : 0 ≤ off)
    (hoff : off < (fh.content.length : Int)) (hrep : off + (dest.length : Int) < 2 ^ 63) :
    (readContent fh dest off evs).outcome =
      .returned (some ((fh.content.take
        (min (off + (dest.length : Int)) (fh.content.length : Int)).toNat).drop off.toNat)) 0 := by
  have hw : wrapInt64 (off + (dest.length : Int)) = off + (dest.length : Int) :=
    wrapInt64_of_range _ (by omega) hrep
  have hend : (if off + (dest.length : Int) > (fh.content.length : Int)
      then (fh.content.length : Int) else off + (dest.length : Int)) =
      min (off + (dest.length : Int)) (fh.content.length : Int) := by
    split <;> omega
  have hs : goSlice fh.content off (min (off + (dest.length : Int)) (fh.content.length : Int)) =
      some ((fh.content.take
        (min (off + (dest.length : Int)) (fh.content.length : Int)).toNat).drop off.toNat) := by
    unfold goSlice
    rw [if_pos (by omega)]
  unfold readContent
  rw [if_neg (by simp [he])]
  simp only [hw, hend, hs]

theorem readContent_serves (fh : httpHandle) (b dest : List Byte) (off : Nat)
    (evs : List Event) (hc : fh.content = b) (he : fh.contentErr = 0)
    (hoff : off < b.length) (hrep : off + dest.length < 2 ^ 63) :
    (readContent fh dest (off : Int) evs).outcome =
      .returned (some ((b.take (min (off + dest.length) b.length)).drop off)) 0 := by
  subst hc
  have key := readContent_serves_int fh dest (off : Int) evs he (by omega) (by omega)
    (by have : ((off + dest.length : Nat) : Int) < 2 ^ 63 := by exact_mod_cast hrep
        push_cast at this
        exact this)
  have h1 : (min ((off : Int) + (dest.length : Int)) (fh.content.length : Int)).toNat =
      min (off + dest.length) fh.content.length := by omega
  rw [key, h1, Int.toNat_ofNat]

theorem Read_serves (fh : httpHandle) (b dest : List Byte) (off : Nat) (h : serves fh b)
    (hoff : off < b.length) (hrep : off + dest.length < 2 ^ 63) :
    (Read fh dest (off : Int)).outcome =
      .returned (some ((b.take (min (off + dest.length) b.length)).drop off)) 0 ∧
    serves (Read fh dest (off : Int)).handle b := by
  rcases h with ⟨h1, h2, h3⟩ | ⟨h1, h2, resp, h3, h4⟩
  · have hf : fillContent fh = some (fh, []) := by simp [fillContent, h1]
    simp only [Read, hf, readContent_handle]
    exact ⟨readContent_serves fh b dest off [] h2 h3 hoff hrep, Or.inl ⟨h1, h2, h3⟩⟩
  · have hf : fillContent fh = some
        ({ fh with resp := some { resp with Body := { data := [], err := false } },
                   content := b, hasContent := true }, [Event.readAll]) := by
      simp [fillContent, ReadAll, h1, h3, h4]
    simp only [Read, hf, readContent_handle]
    exact ⟨readContent_serves _ b dest off _ rfl h2 hoff hrep, Or.inl ⟨rfl, rfl, h2⟩⟩

theorem Read_keeps_serving (fh : httpHandle) (b dest : List Byte) (off : Int)
    (h : serves fh b) : serves (Read fh dest off).handle b := by
  rcases h with ⟨h1, h2, h3⟩ | ⟨h1, h2, resp, h3, h4⟩
  · rw [(Read_buffered fh dest off h1).2]
    exact Or.inl ⟨h1, h2, h3⟩
  · have hf : fillContent fh = some
        ({ fh with resp := some { resp with Body := { data := [], err := false } },
                   content := b, hasContent := true }, [Event.readAll]) := by
      simp [fillContent, ReadAll, h1, h3, h4]
    simp only [Read, hf, readContent_handle]
    exact Or.inl ⟨rfl, rfl, h2⟩

theorem runReads_serves_at (fh : httpHandle) (b : List Byte) (h : serves fh b)
    (reads : List (List Byte × Int)) (i : Nat) (dest : List Byte) (off : Nat)
    (hi : reads[i]? = some (dest, (off : Int)))
    (hoff : off < b.length) (hrep : off + dest.length < 2 ^ 63) :
    (runReads fh reads).1[i]? =
      some (ReadOutcome.returned
        (some ((b.take (min (off + dest.length) b.length)).drop off)) 0) := by
  induction reads generalizing fh i with
  | nil => simp at hi
  | cons r rest ih =>
    obtain ⟨d, o⟩ := r
    cases i with
    | zero =>
      simp only [List.getElem?_cons_zero, Option.some.injEq, Prod.mk.injEq] at hi
      obtain ⟨hd, ho⟩ := hi
      subst hd
      subst ho
      simp only [runReads, List.getElem?_cons_zero, (Read_serves fh b d off h hoff hrep).1]
    | succ j =>
      simp only [List.getElem?_cons_succ] at hi
      simp only [runReads, List.getElem?_cons_succ]
      exact ih (Read fh d o).handle (Read_keeps_serving fh b d o h) j hi

theorem Open_fh (w : World) (n : urlNode) (openFlags : Nat) :
    (Open w n openFlags).fh = some
      { resp := w.Get n.URL, hasContent := (w.Get n.URL).isNone, content := [],
        contentErr := if (w.Get n.URL).isNone then EIO else 0 } := by
  cases h : w.Get n.URL <;> simp [Open, h, EIO]

theorem Read_beyond_end (fh : httpHandle) (dest : List Byte) (off : Int)
    (h1 : fh.hasContent = true) (h2 : fh.contentErr = 0)
    (h3 : (fh.content.length : Int) < off) : (Read fh dest off).outcome = .panicked := by
  have hf : fillContent fh = some (fh, []) := by simp [fillContent, h1]
  have hs : ∀ e : Int, goSlice fh.content off
      (if e > (fh.content.length : Int) then (fh.content.length : Int) else e) = none := by
    intro e
    unfold goSlice
    rw [if_neg]
    rintro ⟨_, h, _⟩
    split at h <;> omega
  simp only [Read, hf]
  unfold readContent
  rw [if_neg (by simp [h2])]
  simp only [hs]

/-! ## Lemmas on `Lookup` -/

theorem Lookup_resolved (w : World) (n : urlNode) (name : String) (url : URL)
    (hp : w.Parse n.URL name = some url) :
    Lookup w n name =
      { child := some
          { Mode := (lookupMode w n name url).1,
            operations :=
              { Flat := false, Extensions := false,
                URL := if (lookupMode w n name url).1 = S_IFDIR
                  then { url with Path := url.Path ++ "/" } else url } },
        errno := 0, events := (lookupMode w n name url).2 } := by
  simp [Lookup, hp]

theorem Lookup_unresolved (w : World) (n : urlNode) (name : String)
    (hp : w.Parse n.URL name = none) :
    Lookup w n name = { child := none, errno := ENOENT, events := [] } := by
  simp [Lookup, hp]

theorem lookupMode_extension (w : World) (n : urlNode) (name : String) (url : URL)
    (hE : n.Extensions = true) (hd : '.' ∉ name.data) :
    lookupMode w n name url = (S_IFDIR, []) := by
  have hc := (stringsContains_dot_false name).2 hd
  simp [lookupMode, hE, hc]

theorem lookupMode_flat (w : World) (n : urlNode) (name : String) (url : URL)
    (hF : n.Flat = true) (h : n.Extensions = false ∨ '.' ∈ name.data) :
    lookupMode w n name url = (S_IFREG, []) := by
  rcases h with h | h
  · simp [lookupMode, hF, h]
  · have hc := (stringsContains_dot name).2 h
    simp [lookupMode, hF, hc]

theorem lookupMode_head (w : World) (n : urlNode) (name : String) (url : URL)
    (hF : n.Flat = false) (h : n.Extensions = false ∨ '.' ∈ name.data) :
    lookupMode w n name url =
      match w.Head url with
      | none => (S_IFREG, [Event.head url])
      | some resp =>
        match resp.Location with
        | some loc =>
          if isDirRedirect url loc then (S_IFDIR, [Event.head url])
          else (S_IFREG, [Event.head url])
        | none => (S_IFREG, [Event.head url]) := by
  rcases h with h | h
  · simp [lookupMode, hF, h]
  · have hc := (stringsContains_dot name).2 h
    simp [lookupMode, hF, hc]

theorem lookupMode_probe (w : World) (n : urlNode) (name : String) (url : URL)
    (hF : n.Flat = false) (h : n.Extensions = false ∨ '.' ∈ name.data) :
    (lookupMode w n name url).2 = [Event.head url] ∧
    ((lookupMode w n name url).1 = S_IFDIR ↔ dirSignal w url) ∧
    ((lookupMode w n name url).1 = S_IFREG ↔ ¬ dirSignal w url) := by
  have hne : S_IFREG ≠ S_IFDIR := by decide
  rw [lookupMode_head w n name url hF h]
  unfold dirSignal
  cases hh : w.Head url with
  | none => simp [hne]
  | some resp =>
    cases hl : resp.Location with
    | none => simp [hl, hne]
    | some loc =>
      by_cases hd : isDirRedirect url loc = true
      · have hd2 := (isDirRedirect_iff url loc).1 hd
        simp [hl, hd, hne.symm, hd2]
      · have hd2 : ¬ (loc.Host = url.Host ∧ loc.Path = url.Path ++ "/") :=
          fun hc => hd ((isDirRedirect_iff url loc).2 hc)
        have hd3 : ¬ ∃ r l, some resp = some r ∧ r.Location = some l ∧
            l.Host = url.Host ∧ l.Path = url.Path ++ "/" := by
          rintro ⟨r, l, hr, hl2, hx⟩
          cases hr
          rw [hl] at hl2
          cases hl2
          exact hd2 hx
        simp only [hl, hd, if_false, Bool.false_eq_true]
        exact ⟨trivial, ⟨fun hc => absurd hc hne, fun hc => absurd hc hd3⟩,
          ⟨fun _ => hd3, fun _ => trivial⟩⟩

theorem lookupMode_mode (w : World) (n : urlNode) (name : String) (url : URL) :
    (lookupMode w n name url).1 = S_IFDIR ∨ (lookupMode w n name url).1 = S_IFREG := by
  unfold lookupMode
  split
  · left; rfl
  · split
    · split
      · right; rfl
      · split
        · split
          · left; rfl
          · right; rfl
        · right; rfl
    · right; rfl

theorem hasSuffix_append (p q : String) : hasSuffix (p ++ q) q := by
  unfold hasSuffix
  rw [String.data_append]
  exact List.suffix_append _ _

/-! ## The claims -/

/-- Claim C1, evaluated on the code: opening with the write-intent flag
`O_WRONLY` is not rejected.  For every world and node, `Open` returns errno 0
and a handle, and it has issued the HTTP GET. -/
theorem C1_open_write_intent_not_rejected (w : World) (n : urlNode) :
    writeIntent O_WRONLY ∧
    (Open w n O_WRONLY).errno = 0 ∧
    (Open w n O_WRONLY).fh.isSome = true ∧
    (Open w n O_WRONLY).events = [Event.get n.URL] := by
  refine ⟨by decide, ?_, ?_, ?_⟩ <;> simp [Open]

/-- Claim C2, evaluated on the code: on a handle whose content is buffered
without error, a `Read` at an offset strictly greater than the content length
panics (slice bounds out of range), whatever the destination buffer. -/
theorem C2_read_beyond_end_panics (fh : httpHandle) (dest : List Byte) (off : Int)
    (h1 : fh.hasContent = true) (h2 : fh.contentErr = 0)
    (h3 : (fh.content.length : Int) < off) : (Read fh dest off).outcome = .panicked :=
  Read_beyond_end fh dest off h1 h2 h3

/-- Claim C2 at the failing input: content `"hello"`, offset 6, a buffer of 10. -/
theorem C2_read_beyond_end_witness :
    helloHandle.hasContent = true ∧ helloHandle.contentErr = 0 ∧
    ((helloHandle.content.length : Int) < 6) ∧
    (Read helloHandle (buffer 10) 6).outcome = .panicked :=
  ⟨rfl, rfl, by decide,
    C2_read_beyond_end_panics helloHandle (buffer 10) 6 rfl rfl (by decide)⟩

/-- Claim C3, evaluated on the code: the node that `Lookup` constructs for a
child has `Flat` and `Extensions` both false, whatever they are in the
parent. -/
theorem C3_child_mode_is_reset (w : World) (n : urlNode) (name : String) (child : Inode)
    (h : (Lookup w n name).child = some child) :
    child.operations.Flat = false ∧ child.operations.Extensions = false := by
  unfold Lookup at h
  cases hp : w.Parse n.URL name with
  | none => simp [hp] at h
  | some url =>
    simp only [hp, Option.some.injEq] at h
    subst h
    exact ⟨rfl, rfl⟩

/-- Claim C3 at the failing input: a node with `Extensions` set, name `docs`:
the child is a directory whose node has `Extensions` unset. -/
theorem C3_child_mode_is_reset_witness :
    (nodeAt false true).Extensions = true ∧
    (Lookup (server [] 302 none) (nodeAt false true) "docs").child = some docsChild ∧
    (docsChild.operations.Flat = false ∧ docsChild.operations.Extensions = false) :=
  ⟨rfl, by decide,
    C3_child_mode_is_reset (server [] 302 none) (nodeAt false true) "docs" docsChild
      (by decide)⟩

/-- Claim C4 fails as stated: a node with both `Flat` and `Extensions` set
classifies the name `b` as a directory. -/
theorem C4_counterexample :
    (nodeAt true true).Flat = true ∧
    (Lookup (server [] 302 none) (nodeAt true true) "b").child =
      some (childOf S_IFDIR (underRoot "b/")) ∧
    S_IFDIR ≠ S_IFREG := by
  decide

/-- Claim C4 as amended: for every node with `Flat` set and every name,
`Lookup` issues no HEAD request (it has no event at all); when the name
resolves, the child exists and has the regular-file mode if `Extensions` is
not set or the name contains a `.`, and the directory mode if `Extensions` is
set and the name contains no `.`. -/
theorem C4_flat_mode (w : World) (n : urlNode) (name : String) (hF : n.Flat = true) :
    (Lookup w n name).events = [] ∧
    ∀ url, w.Parse n.URL name = some url →
      ∃ child, (Lookup w n name).child = some child ∧
        ((n.Extensions = false ∨ '.' ∈ name.data) → child.Mode = S_IFREG) ∧
        ((n.Extensions = true ∧ '.' ∉ name.data) → child.Mode = S_IFDIR) := by
  have hmode : ∀ url, (lookupMode w n name url).2 = [] ∧
      ((n.Extensions = false ∨ '.' ∈ name.data) → (lookupMode w n name url).1 = S_IFREG) ∧
      ((n.Extensions = true ∧ '.' ∉ name.data) → (lookupMode w n name url).1 = S_IFDIR) := by
    intro url
    by_cases h : n.Extensions = false ∨ '.' ∈ name.data
    · rw [lookupMode_flat w n name url hF h]
      exact ⟨rfl, fun _ => rfl, fun hc => by
        rcases h with h | h
        · rw [h] at hc; exact absurd hc.1 (by decide)
        · exact absurd h hc.2⟩
    · have hE : n.Extensions = true := by
        cases hx : n.Extensions
        · exact absurd (Or.inl hx) h
        · rfl
      have hd : '.' ∉ name.data := fun hc => h (Or.inr hc)
      rw [lookupMode_extension w n name url hE hd]
      exact ⟨rfl, fun hc => absurd hc h, fun _ => rfl⟩
  constructor
  · cases hp : w.Parse n.URL name with
    | none => rw [Lookup_unresolved w n name hp]
    | some url => rw [Lookup_resolved w n name url hp]; exact (hmode url).1
  · intro url hp
    rw [Lookup_resolved w n name url hp]
    exact ⟨_, rfl, (hmode url).2.1, (hmode url).2.2⟩

/-- Claim C4 as amended, on a node with only `Flat` set and the name `b`: no
event, a regular file. -/
theorem C4_flat_mode_witness :
    (nodeAt true false).Flat = true ∧
    (Lookup (server ["/a/b"] 302 none) (nodeAt true false) "b").events = [] ∧
    (Lookup (server ["/a/b"] 302 none) (nodeAt true false) "b").child =
      some (childOf S_IFREG (underRoot "b")) :=
  ⟨rfl, (C4_flat_mode (server ["/a/b"] 302 none) (nodeAt true false) "b" rfl).1, by decide⟩

/-- Claim C5 fails as stated: a node with `Extensions` set and `Flat` unset
sends a HEAD request for the name `b.d`, which contains a `.`, and classifies
it as a directory when the server answers with a directory redirect. -/
theorem C5_counterexample :
    (nodeAt false true).Extensions = true ∧ (nodeAt false true).Flat = false ∧
    '.' ∈ "b.d".data ∧
    (Lookup (server ["/a/b.d"] 301 none) (nodeAt false true) "b.d").child =
      some (childOf S_IFDIR (underRoot "b.d/")) ∧
    (Lookup (server ["/a/b.d"] 301 none) (nodeAt false true) "b.d").events =
      [Event.head (underRoot "b.d")] := by
  decide

/-- Claim C5 as amended: on a node with `Extensions` set and `Flat` unset, for
every name that resolves, the child exists; a name without `.` is a directory
and no HEAD request is issued; for a name with a `.` the HEAD request for the
resolved URL is issued and the child is a directory exactly when the probe
reports one, a regular file otherwise. -/
theorem C5_extensions_mode (w : World) (n : urlNode) (name : String) (url : URL)
    (hE : n.Extensions = true) (hF : n.Flat = false)
    (hp : w.Parse n.URL name = some url) :
    ∃ child, (Lookup w n name).child = some child ∧
      ('.' ∉ name.data → child.Mode = S_IFDIR ∧ (Lookup w n name).events = []) ∧
      ('.' ∈ name.data →
        (Lookup w n name).events = [Event.head url] ∧
        (child.Mode = S_IFDIR ↔ dirSignal w url) ∧
        (child.Mode = S_IFREG ↔ ¬ dirSignal w url)) := by
  rw [Lookup_resolved w n name url hp]
  refine ⟨_, rfl, ?_, ?_⟩
  · intro hd
    simp only [lookupMode_extension w n name url hE hd, and_self]
  · intro hd
    exact lookupMode_probe w n name url hF (Or.inr hd)

/-- Claim C5 as amended, on the name `docs`: a directory, without any event. -/
theorem C5_extensions_mode_witness :
    (nodeAt false true).Extensions = true ∧ (nodeAt false true).Flat = false ∧
    (server [] 302 none).Parse (nodeAt false true).URL "docs" = some (underRoot "docs") ∧
    '.' ∉ "docs".data ∧
    (Lookup (server [] 302 none) (nodeAt false true) "docs").child = some docsChild ∧
    docsChild.Mode = S_IFDIR ∧
    (Lookup (server [] 302 none) (nodeAt false true) "docs").events = [] := by
  obtain ⟨child, hc, h1, _⟩ := C5_extensions_mode (server [] 302 none) (nodeAt false true)
    "docs" (underRoot "docs") rfl rfl (by decide)
  have hd : (Lookup (server [] 302 none) (nodeAt false true) "docs").child = some docsChild := by
    decide
  have he : child = docsChild := Option.some.inj (hc.symm.trans hd)
  subst he
  exact ⟨rfl, rfl, by decide, by decide, hd, (h1 (by decide)).1, (h1 (by decide)).2⟩

/-- Claim C6 fails as stated: under default mode, a HEAD answered with status
200, which is not a redirect, and a `Location` naming the requested path
followed by a separator classifies the child as a directory. -/
theorem C6_counterexample :
    (nodeAt false false).Flat = false ∧ (nodeAt false false).Extensions = false ∧
    (server ["/a/b"] 200 none).Head (underRoot "b") =
      some { StatusCode := 200, Location := some (underRoot "b/"),
             Body := { data := [], err := false } } ∧
    ¬ isRedirectStatus 200 ∧
    (Lookup (server ["/a/b"] 200 none) (nodeAt false false) "b").child =
      some (childOf S_IFDIR (underRoot "b/")) := by
  decide

/-- Claim C6 as amended: under default mode, for every name that resolves and
every outcome of the HEAD probe, the child exists, the one request issued is
the HEAD for the resolved URL, and the child is a directory exactly when the
probe succeeded and its response carries a resolvable `Location` (whatever the
status code) with the host of the requested URL and the requested path
followed by a separator; in every other case it is a regular file. -/
theorem C6_default_mode (w : World) (n : urlNode) (name : String) (url : URL)
    (hF : n.Flat = false) (hE : n.Extensions = false)
    (hp : w.Parse n.URL name = some url) :
    ∃ child, (Lookup w n name).child = some child ∧
      (Lookup w n name).events = [Event.head url] ∧
      (child.Mode = S_IFDIR ↔ dirSignal w url) ∧
      (child.Mode = S_IFREG ↔ ¬ dirSignal w url) := by
  rw [Lookup_resolved w n name url hp]
  exact ⟨_, rfl, lookupMode_probe w n name url hF (Or.inl hE)⟩

/-- Claim C6 as amended, on the example of the specification: root
`http://example.com/a/`, name `b`, HEAD answered by a 302 to
`http://example.com/a/b/`: a directory with URL `http://example.com/a/b/`. -/
theorem C6_default_mode_witness :
    (nodeAt false false).Flat = false ∧ (nodeAt false false).Extensions = false ∧
    (server ["/a/b"] 302 none).Parse (nodeAt false false).URL "b" = some (underRoot "b") ∧
    dirSignal (server ["/a/b"] 302 none) (underRoot "b") ∧
    (Lookup (server ["/a/b"] 302 none) (nodeAt false false) "b").child =
      some (childOf S_IFDIR (underRoot "b/")) ∧
    (childOf S_IFDIR (underRoot "b/")).Mode = S_IFDIR := by
  obtain ⟨child, hc, _, h1, _⟩ := C6_default_mode (server ["/a/b"] 302 none)
    (nodeAt false false) "b" (underRoot "b") rfl rfl (by decide)
  have hd : (Lookup (server ["/a/b"] 302 none) (nodeAt false false) "b").child =
      some (childOf S_IFDIR (underRoot "b/")) := by decide
  have he : child = childOf S_IFDIR (underRoot "b/") := Option.some.inj (hc.symm.trans hd)
  subst he
  exact ⟨rfl, rfl, by decide, h1.1 rfl, hd, rfl⟩

/-- Claim C7 fails as stated: under flat mode the name `.` resolves to the URL
of the directory itself, the child is a regular file, and its URL path ends
with a separator. -/
theorem C7_counterexample :
    (Lookup (server [] 302 none) (nodeAt true false) ".").child =
      some (childOf S_IFREG exampleRoot) ∧
    (childOf S_IFREG exampleRoot).Mode = S_IFREG ∧
    hasSuffix (childOf S_IFREG exampleRoot).operations.URL.Path "/" := by
  decide

/-- Claim C7 as amended: every child produced by `Lookup`, in every mode, is a
directory or a regular file; the URL of a directory is the resolved URL with
a separator appended to its path, so its path ends with a separator; the URL
of a regular file is the resolved URL unchanged. -/
theorem C7_url_of_kind (w : World) (n : urlNode) (name : String) (child : Inode)
    (h : (Lookup w n name).child = some child) :
    (child.Mode = S_IFDIR ∨ child.Mode = S_IFREG) ∧
    (child.Mode = S_IFDIR →
      hasSuffix child.operations.URL.Path "/" ∧
      ∃ url, w.Parse n.URL name = some url ∧
        child.operations.URL = { url with Path := url.Path ++ "/" }) ∧
    (child.Mode = S_IFREG → w.Parse n.URL name = some child.operations.URL) := by
  have hne : S_IFREG ≠ S_IFDIR := by decide
  cases hp : w.Parse n.URL name with
  | none => rw [Lookup_unresolved w n name hp] at h; cases h
  | some url =>
    rw [Lookup_resolved w n name url hp, Option.some.injEq] at h
    subst h
    refine ⟨lookupMode_mode w n name url, ?_, ?_⟩
    · intro hm
      have hm2 : (lookupMode w n name url).1 = S_IFDIR := hm
      simp only [hm2, if_true]
      exact ⟨hasSuffix_append _ _, url, rfl, rfl⟩
    · intro hm
      have hm2 : (lookupMode w n name url).1 = S_IFREG := hm
      simp only [hm2, hne, if_false]

/-- Claim C7 as amended, on the directory `b` of the example server. -/
theorem C7_url_of_kind_witness :
    (Lookup (server ["/a/b"] 302 none) (nodeAt false false) "b").child =
      some (childOf S_IFDIR (underRoot "b/")) ∧
    (childOf S_IFDIR (underRoot "b/")).Mode = S_IFDIR ∧
    hasSuffix (childOf S_IFDIR (underRoot "b/")).operations.URL.Path "/" :=
  ⟨by decide, rfl,
    ((C7_url_of_kind (server ["/a/b"] 302 none) (nodeAt false false) "b"
      (childOf S_IFDIR (underRoot "b/")) (by decide)).2.1 rfl).1⟩

/-- Claim C8: the I/O error of a handle is sticky and the body is drained at
most once.  For the handle `fh` that `Open` returns and every sequence of
`Read` calls on it: the body is drained at most once; if the GET failed, every
call returns nil with EIO and the body is never drained; if the GET succeeded
and draining its body fails, every call returns nil with EIO. -/
theorem C8_error_is_sticky (w : World) (n : urlNode) (openFlags : Nat) (fh : httpHandle)
    (hopen : (Open w n openFlags).fh = some fh) (reads : List (List Byte × Int)) :
    drains (runReads fh reads).2.1 ≤ 1 ∧
    (w.Get n.URL = none →
      (runReads fh reads).1 = reads.map (fun _ => ReadOutcome.returned none EIO) ∧
      drains (runReads fh reads).2.1 = 0) ∧
    (∀ resp, w.Get n.URL = some resp → resp.Body.err = true →
      (runReads fh reads).1 = reads.map (fun _ => ReadOutcome.returned none EIO)) := by
  rw [Open_fh, Option.some.injEq] at hopen
  refine ⟨drains_runReads_le_one fh reads, ?_, ?_⟩
  · intro hget
    have hs : stuck fh := by
      subst hopen
      simp [stuck, hget]
    rw [runReads_stuck fh reads hs]
    simp [drains]
  · intro resp hget herr
    cases reads with
    | nil => rfl
    | cons r rest =>
      obtain ⟨dest, off⟩ := r
      have h1 : fh.hasContent = false := by subst hopen; simp [hget]
      have h2 : fh.resp = some resp := by subst hopen; simp [hget]
      obtain ⟨ho, _, hs⟩ := Read_drain_fails fh resp dest off h1 h2 herr
      simp [runReads, ho, runReads_stuck _ rest hs]

/-- Claim C8 on two handles read three times: the one of a failed GET, which
never drains, and one whose body breaks, which drains once. -/
theorem C8_error_is_sticky_witness :
    ((Open (server [] 302 none) (nodeAt false false) 0).fh = some failedGetHandle ∧
      (runReads failedGetHandle threeReads).1 =
        [.returned none EIO, .returned none EIO, .returned none EIO] ∧
      drains (runReads failedGetHandle threeReads).2.1 = 0) ∧
    ((Open (server [] 302 (some (okResponse brokenBody))) (nodeAt false false) 0).fh =
        some (freshHandle brokenBody) ∧
      (runReads (freshHandle brokenBody) threeReads).1 =
        [.returned none EIO, .returned none EIO, .returned none EIO] ∧
      drains (runReads (freshHandle brokenBody) threeReads).2.1 ≤ 1) :=
  ⟨⟨by decide,
    ((C8_error_is_sticky (server [] 302 none) (nodeAt false false) 0 failedGetHandle
      (by decide) threeReads).2.1 rfl).1,
    ((C8_error_is_sticky (server [] 302 none) (nodeAt false false) 0 failedGetHandle
      (by decide) threeReads).2.1 rfl).2⟩,
   ⟨by decide,
    (C8_error_is_sticky (server [] 302 (some (okResponse brokenBody))) (nodeAt false false) 0
      (freshHandle brokenBody) (by decide) threeReads).2.2 (okResponse brokenBody) rfl rfl,
    (C8_error_is_sticky (server [] 302 (some (okResponse brokenBody))) (nodeAt false false) 0
      (freshHandle brokenBody) (by decide) threeReads).1⟩⟩

/-- Claim C9: for the handle `fh` that `Open` returns when the GET succeeded
and its body delivers `b` cleanly, and for every sequence of `Read` calls on
it, at arbitrary offsets and lengths: every call of the sequence whose offset
lies inside `b` (and whose `off + len(dest)` is representable as an `int64`)
returns exactly `b[off : min(off+len(dest), len(b))]` with errno 0, whatever
the calls before it were.  All reads see the same buffer `b`. -/
theorem C9_reads_return_slices (w : World) (n : urlNode) (openFlags : Nat) (fh : httpHandle)
    (resp : Response) (b : List Byte)
    (hopen : (Open w n openFlags).fh = some fh)
    (hget : w.Get n.URL = some resp) (hbody : resp.Body = { data := b, err := false })
    (reads : List (List Byte × Int)) (i : Nat) (dest : List Byte) (off : Nat)
    (hi : reads[i]? = some (dest, (off : Int)))
    (hoff : off < b.length) (hrep : off + dest.length < 2 ^ 63) :
    (runReads fh reads).1[i]? =
      some (ReadOutcome.returned
        (some ((b.take (min (off + dest.length) b.length)).drop off)) 0) := by
  rw [Open_fh, Option.some.injEq] at hopen
  refine runReads_serves_at fh b (Or.inr ?_) reads i dest off hi hoff hrep
  subst hopen
  simp [hget, hbody]

/-- Claim C9 on the body `"hello"` and the reads `Read(0, 10)`, `Read(5, 10)`,
`Read(6, 10)`, `Read(2, 2)`: the first returns `"hello"` and the last returns
`"ll"`, after a read at the end of the content and one beyond it. -/
theorem C9_reads_return_slices_witness :
    (Open (server [] 302 (some (okResponse helloBody))) (nodeAt false false) 0).fh =
      some (freshHandle helloBody) ∧
    (runReads (freshHandle helloBody) helloReads).1 =
      [.returned (some [104, 101, 108, 108, 111]) 0, .returned (some []) 0, .panicked,
       .returned (some [108, 108]) 0] ∧
    (runReads (freshHandle helloBody) helloReads).1[0]? =
      some (.returned (some [104, 101, 108, 108, 111]) 0) ∧
    (runReads (freshHandle helloBody) helloReads).1[3]? =
      some (.returned (some [108, 108]) 0) :=
  ⟨by decide, by decide,
    C9_reads_return_slices (server [] 302 (some (okResponse helloBody))) (nodeAt false false) 0
      (freshHandle helloBody) (okResponse helloBody) hello (by decide) rfl rfl helloReads
      0 (buffer 10) 0 (by decide) (by decide) (by decide),
    C9_reads_return_slices (server [] 302 (some (okResponse helloBody))) (nodeAt false false) 0
      (freshHandle helloBody) (okResponse helloBody) hello (by decide) rfl rfl helloReads
      3 (buffer 2) 2 (by decide) (by decide) (by decide)⟩

/-- Claim C10 fails as stated: a redirect from `http://example.com/a/b` to
`https://other.example/elsewhere`, another host and another path, is
followed. -/
theorem C10_counterexample :
    CheckRedirect (requestFor "https" "other.example" "/elsewhere")
      [requestFor "http" "example.com" "/a/b"] = .follow ∧
    (requestFor "https" "other.example" "/elsewhere").URL.Host ≠
      (requestFor "http" "example.com" "/a/b").URL.Host ∧
    (requestFor "https" "other.example" "/elsewhere").URL.Path ≠
      (requestFor "http" "example.com" "/a/b").URL.Path := by
  decide

/-- Claim C10 as amended: for a non-empty history, `CheckRedirect` follows the
redirect exactly when the new request has scheme `https` and the most recent
previous request has scheme `http`; in every other case it returns
`ErrUseLastResponse`. -/
theorem C10_redirect_policy (req : Request) (via : List Request) (hne : via ≠ []) :
    (CheckRedirect req via = .follow ↔
      req.URL.Scheme = "https" ∧ (via.getLast hne).URL.Scheme = "http") ∧
    (CheckRedirect req via ≠ .follow → CheckRedirect req via = .useLastResponse) := by
  unfold CheckRedirect
  rw [List.getLast?_eq_getLast via hne]
  by_cases h1 : req.URL.Scheme = "https"
  · by_cases h2 : (via.getLast hne).URL.Scheme = "http" <;> simp [h1, h2]
  · simp [h1]

/-- Claim C10 as amended, on an upgrade of `http://example.com/a/b` to
`https://example.com/a/b`. -/
theorem C10_redirect_policy_witness :
    [requestFor "http" "example.com" "/a/b"] ≠ [] ∧
    CheckRedirect (requestFor "https" "example.com" "/a/b")
      [requestFor "http" "example.com" "/a/b"] = .follow :=
  ⟨by decide,
    ((C10_redirect_policy (requestFor "https" "example.com" "/a/b")
      [requestFor "http" "example.com" "/a/b"] (by decide)).1).2 ⟨rfl, rfl⟩⟩

end HttpConfigFs
